import Mathlib

/-!
Verification of the spam/phishing detection pipeline orchestration
(`main.py` and the spec of the `spamandphishingdetection` package).

The embedding models dataframes as Lean lists of typed rows, the on-disk
cache as an explicit store threaded through the orchestration functions,
and the fold loop of `main` as a pure function that also emits an event
trace.  Functions imported by `main.py` from the package (whose bodies are
not part of the repository snapshot) are modelled from the spec and marked
as such in their doc comments.
-/

namespace SpamPhishing

/-! ### SpamAssassin label remapping (`main.py` line 111)

the label column of df_spamassassin is remapped with the dict 1 to 0, 0 to 1.
Pandas `Series.map` with a dict sends any value that is not a key of the
dict to NaN; we embed NaN as `none`. -/

/-- The dict-based label remap `{1: 0, 0: 1}` applied by pandas `.map`:
keys are swapped, every non-key value becomes missing (`none`). -/
def spamAssassinLabelMap (v : Int) : Option Int :=
  if v = 1 then some 0 else if v = 0 then some 1 else none

/-- Column-level application of the remap to the SpamAssassin label column. -/
def relabelSpamAssassin (labels : List Int) : List (Option Int) :=
  labels.map spamAssassinLabelMap

/-! ### Top-level control flow of `main` (`main.py` lines 93-375)

`main` first loads the configuration and the two raw datasets (lines
94-102), *then* opens the `try:` block (line 104).  The `except` at lines
373-375 logs the exception message and `return`s.  We model exceptions as
`Except`: the outer `Except` is what `main` itself does towards its caller
(`.error` = an exception escapes `main`), and the `Option String` payload
records a message logged by the top-level handler. -/

/-- Control-flow skeleton of `main`: `loadResult` is the configuration and
dataset loading prelude (before the `try:`), `body` is the processing code
inside the `try:`.  An error in the prelude escapes `main`; an error in the
body is caught, logged (returned as `some msg`), and `main` returns. -/
def mainProgram {α : Type} (loadResult : Except String α)
    (body : α → Except String Unit) : Except String (Option String) :=
  match loadResult with
  | .error e => .error e
  | .ok env =>
    match body env with
    | .ok () => .ok none
    | .error e => .ok (some e)

/-- A prelude failure: `config.json` missing when `load_config` runs. -/
def failingLoad : Except String Nat := .error "FileNotFoundError: config.json"

/-- A body that succeeds (the processing stages raise nothing). -/
def trivialBody : Nat → Except String Unit := fun _ => .ok ()

/-- A body that raises inside the `try:` block. -/
def raisingBody : Nat → Except String Unit := fun _ => .error "KeyError: body"

end SpamPhishing

namespace SpamPhishing

/-! ### The per-fold loop of `main` (`main.py` lines 274-375)

For each fold (indexed from 1 by `enumerate(folds, start=1)`) the loop
runs feature extraction (`run_pipeline_or_load`), then model training
(`model_training`), then appends the test accuracy of the fold to
`fold_test_accuracies`.  There is no `try/except` inside the loop: an
exception raised by `model_training` propagates to the top-level handler
at lines 373-375, which logs it and returns, so the remaining folds are
never processed and the mean accuracy at line 370 is never computed.

We model the per-fold training outcome as `Except String ℚ` (error =
`model_training` raised, ok = the test accuracy of the fold) and let the loop
emit an event trace recording the order of the work performed. -/

/-- An observable step of the fold loop. -/
inductive Event : Type where
  | featureExtraction (fold : Nat)
  | training (fold : Nat)
  | appendAccuracy (fold : Nat)
deriving DecidableEq

/-- Lexicographic (fold, stage) position of an event: feature extraction,
then training, then the accuracy append, fold blocks in fold order. -/
def eventKey : Event → Nat
  | .featureExtraction i => 3 * i
  | .training i => 3 * i + 1
  | .appendAccuracy i => 3 * i + 2

/-- The fold loop of `main`, starting at fold index `i`: for each fold run
feature extraction, then training; on success append the accuracy and
continue with the next fold, on failure stop (the exception propagates).
Returns the emitted event trace and either the collected accuracies or the
propagated error. -/
def runFolds : Nat → List (Except String ℚ) → List Event × Except String (List ℚ)
  | _, [] => ([], .ok [])
  | i, .ok a :: rest =>
    let r := runFolds (i + 1) rest
    (.featureExtraction i :: .training i :: .appendAccuracy i :: r.1,
      r.2.map (a :: ·))
  | i, .error e :: _ => ([.featureExtraction i, .training i], .error e)

/-- Outcome of a whole run of the fold phase of `main`. -/
inductive RunOutcome : Type where
  | completed (meanAccuracy : ℚ) (accuracies : List ℚ)
  | abortedLogged (msg : String)
deriving DecidableEq

/-- The fold phase followed by the mean-accuracy computation (line 370) and
the top-level handler (lines 373-375): if every fold trains, the mean test
accuracy is computed; if any fold raises, the run is aborted with the
message logged. -/
def mainRun (results : List (Except String ℚ)) : RunOutcome :=
  match (runFolds 1 results).2 with
  | .ok accs => .completed (accs.sum / accs.length) accs
  | .error e => .abortedLogged e

/-- A run in which training of the second fold raises (a degenerate single-class
fold) while folds 1 and 3 would succeed. -/
def foldResultsWithFailure : List (Except String ℚ) :=
  [.ok (9 / 10), .error "ValueError: single-class fold", .ok (4 / 5)]

/-! ### Re-attachment of the cleaned CEAS_08 headers (`main.py` lines 146-192)

`load_or_save_emails` produces a cleaned sender/receiver table derived
row-for-row from `df_processed_ceas`; each cleaned row conceptually belongs
to one record (its `index`).  After dropping `sender`/`receiver` from
`df_processed_ceas`, line 166 re-attaches the cleaned columns with
`pd.concat([cleaned.reset_index(drop=True), processed.reset_index(drop=True)], axis=1)`
— a purely positional alignment: row `i` of the cleaned table is glued to
row `i` of the processed table, whatever their `index` values are.  Lines
170-175 count (but do not drop) rows whose cleaned sender or receiver is
null, and lines 181-192 re-check the row count and save the full merged
frame. -/

/-- A row of the cleaned CEAS_08 header table: the record it was derived
from (`index`) and the cleaned, possibly-null sender and receiver. -/
structure CleanedHeaderRow : Type where
  index : Nat
  sender : Option String
  receiver : Option String
deriving DecidableEq

/-- A row of `df_processed_ceas` after `sender`/`receiver` were dropped. -/
structure ProcessedCeasRow : Type where
  index : Nat
  body : String
  label : Int
deriving DecidableEq

/-- A row of `df_cleaned_ceas_headers_merge`. -/
structure MergedHeaderRow : Type where
  sender : Option String
  receiver : Option String
  index : Nat
  body : String
  label : Int
deriving DecidableEq

/-- The `pd.concat(..., axis=1)` after `reset_index(drop=True)` on both
frames (lines 166-168): positional gluing of row `i` to row `i`. -/
def cleanedHeadersMerge (cleaned : List CleanedHeaderRow)
    (processed : List ProcessedCeasRow) : List MergedHeaderRow :=
  (cleaned.zip processed).map fun cp =>
    { sender := cp.1.sender, receiver := cp.1.receiver,
      index := cp.2.index, body := cp.2.body, label := cp.2.label }

/-- What an index-keyed join of the same two tables would produce: each
processed record picks up the cleaned headers of the row with the *same*
`index` value. -/
def indexKeyJoin (cleaned : List CleanedHeaderRow)
    (processed : List ProcessedCeasRow) : List MergedHeaderRow :=
  processed.filterMap fun p =>
    (cleaned.find? fun c => c.index == p.index).map fun c =>
      { sender := c.sender, receiver := c.receiver,
        index := p.index, body := p.body, label := p.label }

/-- The count logged at line 175: merged rows whose sender or receiver is
null.  The subset is computed only for logging; no row is dropped. -/
def missingHeaderCount (merged : List MergedHeaderRow) : Nat :=
  (merged.filter fun r => r.sender.isNone || r.receiver.isNone).length

/-- The header-cleaning stage (lines 151-192): check the row counts match
(raising `ValueError` otherwise), glue the tables positionally, count the
null-header rows for logging, re-check the row count, and save the *full*
merged frame.  Returns the logged count and the saved frame. -/
def headerCleaningStage (cleaned : List CleanedHeaderRow)
    (processed : List ProcessedCeasRow) :
    Except String (Nat × List MergedHeaderRow) :=
  if cleaned.length ≠ processed.length then
    .error "row count mismatch: cleaned headers vs processed CEAS_08"
  else
    let merged := cleanedHeadersMerge cleaned processed
    if merged.length ≠ processed.length then
      .error "row count mismatch: merged cleaned headers vs processed CEAS_08"
    else
      .ok (missingHeaderCount merged, merged)

/-- Cleaned-header rows listed in an order that disagrees with the
index order of the processed table (record 1 first, record 0 second). -/
def exCleaned : List CleanedHeaderRow :=
  [{ index := 1, sender := some "s1", receiver := some "r1" },
   { index := 0, sender := some "s0", receiver := some "r0" }]

/-- Processed CEAS_08 rows in `index` order. -/
def exProcessed : List ProcessedCeasRow :=
  [{ index := 0, body := "b0", label := 0 },
   { index := 1, body := "b1", label := 1 }]

/-- Cleaned-header rows one of which has a null sender (header cleaning
could not parse it). -/
def exCleanedNull : List CleanedHeaderRow :=
  [{ index := 0, sender := none, receiver := some "r0" },
   { index := 1, sender := some "s1", receiver := some "r1" }]

/-! ### Merge & Integration Layer (`main.py` lines 205-223, package functions)

`merge_dataframes` and `verify_merged_dataframe` are imported from the
`spamandphishingdetection` package, whose sources are not part of the
snapshot; they are modelled from the spec (§4.1).  We track the schema-level
view a dataframe presents to the merge layer: its column names and its
`index` column values (one per row). -/

/-- Schema-level view of a dataframe: the column names and the values of
the `index` key column, one entry per row. -/
structure SchemaDF : Type where
  cols : List String
  indexVals : List Nat
deriving DecidableEq

/-- Number of rows of a schema-level dataframe. -/
def SchemaDF.nrows (df : SchemaDF) : Nat := df.indexVals.length

/-- Modelled from the spec: `merge_dataframes(base, feature, on_column,
select_columns)` (spec §4.1) joins the two tables on the key column and
restricts the output to the declared allow-list of columns plus the join
key.  The join must be total (every base key present in the feature table,
exactly one feature row per key) or the merge fails loudly; on success the
output has exactly the rows of the base table. -/
def merge_dataframes (base feature : SchemaDF) (onColumn : String)
    (selectColumns : List String) : Except String SchemaDF :=
  if (∀ i ∈ base.indexVals, i ∈ feature.indexVals) ∧ feature.indexVals.Nodup then
    .ok { cols := if onColumn ∈ selectColumns then selectColumns
                  else selectColumns ++ [onColumn],
          indexVals := base.indexVals }
  else
    .error "merge failed: feature table does not cover the base index"

/-- Modelled from the spec: `verify_merged_dataframe(merged, reference)`
(spec §4.1) compares row counts and, where applicable, column sets between
the merged table and a reference, raising (fatal, not retried) on any
mismatch. -/
def verify_merged_dataframe (merged reference : SchemaDF)
    (expectedCols : Option (List String)) : Except String Unit :=
  if merged.nrows ≠ reference.nrows then
    .error "row count mismatch after merge"
  else
    match expectedCols with
    | none => .ok ()
    | some cs =>
      if (∀ c ∈ merged.cols, c ∈ cs) ∧ (∀ c ∈ cs, c ∈ merged.cols) then .ok ()
      else .error "column set mismatch after merge"

/-- The allow-list used by both `merge_dataframes` calls in `main.py`
(lines 208-209 and 219-220). -/
def mainSelectColumns : List String :=
  ["sender", "receiver", "https_count", "http_count",
   "blacklisted_keywords_count", "short_urls", "has_ip_address", "urls",
   "body", "label", "index"]

/-- A concrete base table for the merge layer. -/
def exBaseDF : SchemaDF := { cols := ["body", "label", "index"], indexVals := [0, 1, 2] }

/-- A concrete header-feature table covering the base index. -/
def exFeatureDF : SchemaDF :=
  { cols := ["https_count", "http_count", "index"], indexVals := [2, 1, 0] }

/-! ### Training/Caching Orchestrator (`main.py` lines 319-327, spec §4.4)

`run_pipeline_or_load` is imported from the package; modelled from the
spec.  The cache is path-addressed: the key is derived from the cache
directory and the fold index, and the artifact is four individual files
(X_train_balanced, X_test_combined, y_train_balanced, y_test).  We model
the file system as a store from `(dir, fold, slot)` keys to optional file
contents (contents abstracted as `Nat`), plus a counter of how many times
the expensive pipeline (embedding extraction + oversampling) actually ran. -/

/-- A cache file key: (cache directory, fold index, artifact slot 0-3). -/
abbrev CacheKey : Type := Nat × Nat × Nat

/-- The on-disk state seen by the orchestrator: the artifact files and the
number of expensive pipeline executions performed so far. -/
structure PipelineState : Type where
  files : CacheKey → Option Nat
  pipelineRuns : Nat

/-- Modelled from the spec: the persisting step of `run_pipeline_or_load`
(spec §4.4) — write each of the four pipeline outputs to its artifact file
at the cache key derived from `dir` and `foldIdx`, counting one expensive
pipeline execution. -/
def persistArtifacts (foldIdx dir : Nat) (pipelineOut : Nat × Nat × Nat × Nat)
    (s : PipelineState) : PipelineState :=
  { files := fun k =>
      if k = (dir, foldIdx, 0) then some pipelineOut.1
      else if k = (dir, foldIdx, 1) then some pipelineOut.2.1
      else if k = (dir, foldIdx, 2) then some pipelineOut.2.2.1
      else if k = (dir, foldIdx, 3) then some pipelineOut.2.2.2
      else s.files k,
    pipelineRuns := s.pipelineRuns + 1 }

/-- Modelled from the spec: `run_pipeline_or_load(fold_idx, …, pipeline,
dir)` (spec §4.4) computes the cache key from `fold_idx` and `dir`; if all
four artifact files exist there it loads and returns them, bypassing the
pipeline entirely; otherwise it runs the full feature-extraction pipeline
(here: the precomputed result `pipelineOut`), persists each of the four
outputs individually via `persistArtifacts`, and returns them. -/
def run_pipeline_or_load (foldIdx dir : Nat)
    (pipelineOut : Nat × Nat × Nat × Nat) (s : PipelineState) :
    (Nat × Nat × Nat × Nat) × PipelineState :=
  match s.files (dir, foldIdx, 0), s.files (dir, foldIdx, 1),
        s.files (dir, foldIdx, 2), s.files (dir, foldIdx, 3) with
  | some a, some b, some c, some d => ((a, b, c, d), s)
  | _, _, _, _ =>
    ((pipelineOut.1, pipelineOut.2.1, pipelineOut.2.2.1, pipelineOut.2.2.2),
     persistArtifacts foldIdx dir pipelineOut s)

/-- An empty cache: no artifact file exists yet. -/
def emptyCache : PipelineState := { files := fun _ => none, pipelineRuns := 0 }

/-- A cache that already holds all four artifacts of fold 1 in dir 0. -/
def warmCache : PipelineState :=
  { files := fun k =>
      if k = (0, 1, 0) then some 10
      else if k = (0, 1, 1) then some 11
      else if k = (0, 1, 2) then some 12
      else if k = (0, 1, 3) then some 13
      else none,
    pipelineRuns := 0 }

/-! ### Fold Splitter (`main.py` line 266, spec §4.2)

`stratified_k_fold_split` is imported from the package; modelled from the
spec: partition the records into `k` groups so that each group preserves
the global class ratio (realised deterministically by assigning the `r`-th
record of each class, counted in dataset order and offset by the seed, to
group `(r + seed) % k`); fold `g` holds group `g` out as test and
concatenates the remaining groups as train.  A record is a pair
`(index, label)`. -/

/-- Assign each record its fold group: the `r`-th record of its class
(counted over `seen`, offset by the seed) goes to group `(r + seed) % k`. -/
def assignGroups (k seed : Nat) (seen : List Int) :
    List (Nat × Int) → List ((Nat × Int) × Nat)
  | [] => []
  | r :: rs => (r, (seen.count r.2 + seed) % k) :: assignGroups k seed (r.2 :: seen) rs

/-- The test part of fold `g`: the indices of the records assigned group `g`. -/
def testFold (records : List (Nat × Int)) (k seed g : Nat) : List Nat :=
  ((assignGroups k seed [] records).filter fun p => p.2 = g).map fun p => p.1.1

/-- The train part of fold `g`: the indices of all records outside group `g`. -/
def trainFold (records : List (Nat × Int)) (k seed g : Nat) : List Nat :=
  ((assignGroups k seed [] records).filter fun p => p.2 ≠ g).map fun p => p.1.1

/-- Modelled from the spec: `stratified_k_fold_split(df)` (spec §4.2)
returns the finite sequence of exactly `k` folds, fold `g` being its
train/test index pair. -/
def stratified_k_fold_split (records : List (Nat × Int)) (k seed : Nat) :
    List (List Nat × List Nat) :=
  (List.range k).map fun g => (trainFold records k seed g, testFold records k seed g)

/-- A concrete dataset: four records with unique indices, two per class. -/
def exRecords : List (Nat × Int) := [(0, 1), (1, 0), (2, 1), (3, 0)]

/-! ### Feature Extraction Pipeline (`main.py` lines 282-327, spec §4.3)

The pipeline built at lines 294-316 chains the column transformer and the
BERT feature transformer (both fit on the training split only and applied
unchanged to the test split) with SMOTE as the final step.  In an imblearn
pipeline the resampler runs only during `fit` — on the training split —
and is skipped during `transform`, so the test split is never oversampled.
The fitted transform is abstracted as `fit Xtrain : α → β`; SMOTE is
modelled from the spec (§4.3): synthesize minority-class vectors (here via
the abstract generator `synth`) until both classes have equal counts. -/

/-- Rows of a labelled split with a given label. -/
def countLabel {β : Type} (l : Int) (rows : List (β × Int)) : Nat :=
  (rows.filter fun r => r.2 = l).length

/-- Modelled from the spec: SMOTE rebalancing (spec §4.3) — append
synthetic minority-class feature vectors, produced by the interpolation
generator `synth`, until `count(class=0) = count(class=1)`. -/
def smoteOversample {β : Type} (train : List (β × Int)) (synth : Nat → β) :
    List (β × Int) :=
  let c0 := countLabel 0 train
  let c1 := countLabel 1 train
  if c0 ≤ c1 then train ++ (List.range (c1 - c0)).map fun i => (synth i, 0)
  else train ++ (List.range (c0 - c1)).map fun i => (synth i, 1)

/-- Modelled from the spec: the per-fold feature-extraction pipeline (spec
§4.3) — fit the transformer on the training split only, transform both
splits with the fitted transformer, then oversample the training split
only.  Returns (balanced labelled train rows, transformed test features,
test labels). -/
def feature_extraction_pipeline {α β : Type} (fit : List α → (α → β))
    (synth : Nat → β) (Xtrain Xtest : List α) (ytrain ytest : List Int) :
    List (β × Int) × List β × List Int :=
  let f := fit Xtrain
  let trainRows := (Xtrain.map f).zip ytrain
  (smoteOversample trainRows synth, Xtest.map f, ytest)

end SpamPhishing

namespace SpamPhishing

/-! ## Theorems -/

/-- C10: the SpamAssassin label remapping swaps the two label values
(1 becomes 0 and 0 becomes 1), and any original label outside the set
containing 0 and 1 is remapped to null (missing) rather than preserved or
rejected, so the binary-label invariant can be silently violated. -/
theorem spamassassin_remap_swaps_and_nulls :
    spamAssassinLabelMap 1 = some 0 ∧ spamAssassinLabelMap 0 = some 1 ∧
    ∀ v : Int, v ≠ 0 → v ≠ 1 → spamAssassinLabelMap v = none := by
  refine ⟨rfl, rfl, fun v h0 h1 => ?_⟩
  simp [spamAssassinLabelMap, h0, h1]

/-- Witness for C10 at the out-of-range label 2. -/
theorem spamassassin_remap_swaps_and_nulls_witness :
    (2 : Int) ≠ 0 ∧ (2 : Int) ≠ 1 ∧ spamAssassinLabelMap 2 = none :=
  ⟨by decide, by decide,
    spamassassin_remap_swaps_and_nulls.2.2 2 (by decide) (by decide)⟩

/-- C7 counterexample: an exception raised while loading the configuration
(before the `try:` block of `main` opens) escapes `main` to its caller, so
it is not true that any unclassified runtime error raised during the run is
caught at the top level. -/
theorem main_reraises_prelude_error :
    mainProgram failingLoad trivialBody = .error "FileNotFoundError: config.json" ∧
    mainProgram failingLoad trivialBody ≠ .ok none := by
  refine ⟨rfl, ?_⟩
  intro h
  simp [mainProgram, failingLoad, trivialBody] at h

/-- C7 (amended): any unclassified runtime error raised inside the
processing stages (the `try:` block, after configuration and dataset
loading) is caught by the top-level handler, logged with its message, and
`main` returns normally; if nothing raises, `main` also returns normally.
Errors raised during the loading prelude, however, propagate. -/
theorem main_catches_try_block_errors {α : Type} (env : α)
    (body : α → Except String Unit) (m : String) :
    (body env = .error m → mainProgram (.ok env) body = .ok (some m)) ∧
    (body env = .ok () → mainProgram (.ok env) body = .ok none) := by
  constructor <;> intro h <;> simp [mainProgram, h]

/-- Witness for the amended C7: a body raising KeyError is caught and its
message logged, `main` returning normally. -/
theorem main_catches_try_block_errors_witness :
    mainProgram (Except.ok 0) raisingBody = .ok (some "KeyError: body") :=
  (main_catches_try_block_errors 0 raisingBody "KeyError: body").1 rfl

/-- C6 counterexample: the re-attachment of the cleaned CEAS_08 headers is
not an index-keyed join.  With the cleaned table listed in the order
(record 1, record 0) and the processed table in the order (record 0,
record 1), the positional concat attaches the cleaned sender of record 1
to the row whose index is 0, and the result differs from the index-keyed
join of the same two tables. -/
theorem cleaned_header_merge_not_index_join :
    cleanedHeadersMerge exCleaned exProcessed ≠ indexKeyJoin exCleaned exProcessed ∧
    (cleanedHeadersMerge exCleaned exProcessed).head? =
      some { sender := some "s1", receiver := some "r1",
             index := 0, body := "b0", label := 0 } := by
  constructor <;> decide

/-- C6 (amended): the `merge_dataframes` joins are keyed on the index
column (the merge only succeeds when the feature table covers the base
index), but the re-attachment of the cleaned CEAS_08 sender/receiver
headers is purely positional: the merged sender and receiver columns come
in the order of the cleaned table while the merged index, body and label
columns come in the order of the processed table, with no index-key
correspondence enforced. -/
theorem cleaned_header_merge_is_positional
    (cleaned : List CleanedHeaderRow) (processed : List ProcessedCeasRow)
    (h : cleaned.length = processed.length) :
    (cleanedHeadersMerge cleaned processed).map MergedHeaderRow.sender =
      cleaned.map CleanedHeaderRow.sender ∧
    (cleanedHeadersMerge cleaned processed).map MergedHeaderRow.receiver =
      cleaned.map CleanedHeaderRow.receiver ∧
    (cleanedHeadersMerge cleaned processed).map MergedHeaderRow.index =
      processed.map ProcessedCeasRow.index ∧
    (∀ base feature sel m, merge_dataframes base feature "index" sel = .ok m →
      ∀ i ∈ base.indexVals, i ∈ feature.indexVals) := by
  have key : ∀ (cs : List CleanedHeaderRow) (ps : List ProcessedCeasRow),
      cs.length = ps.length →
      (cleanedHeadersMerge cs ps).map MergedHeaderRow.sender =
        cs.map CleanedHeaderRow.sender ∧
      (cleanedHeadersMerge cs ps).map MergedHeaderRow.receiver =
        cs.map CleanedHeaderRow.receiver ∧
      (cleanedHeadersMerge cs ps).map MergedHeaderRow.index =
        ps.map ProcessedCeasRow.index := by
    intro cs
    induction cs with
    | nil =>
      intro ps hps
      cases ps with
      | nil => simp [cleanedHeadersMerge]
      | cons p ps => simp at hps
    | cons c cs ih =>
      intro ps hps
      cases ps with
      | nil => simp at hps
      | cons p ps =>
        have hlen : cs.length = ps.length := by
          simpa using hps
        obtain ⟨h1, h2, h3⟩ := ih ps hlen
        simp only [cleanedHeadersMerge, List.zip_cons_cons, List.map_cons]
        simp only [cleanedHeadersMerge] at h1 h2 h3
        exact ⟨congrArg _ h1, congrArg _ h2, congrArg _ h3⟩
  obtain ⟨h1, h2, h3⟩ := key cleaned processed h
  refine ⟨h1, h2, h3, ?_⟩
  intro base feature sel m hm i hi
  unfold merge_dataframes at hm
  split at hm
  · next hcond => exact hcond.1 i hi
  · exact absurd hm (by simp)

/-- Witness for the amended C6 at the concrete two-row tables. -/
theorem cleaned_header_merge_is_positional_witness :
    (cleanedHeadersMerge exCleaned exProcessed).map MergedHeaderRow.sender =
      exCleaned.map CleanedHeaderRow.sender :=
  (cleaned_header_merge_is_positional exCleaned exProcessed (by decide)).1

end SpamPhishing

namespace SpamPhishing

/-- C8: after the header-cleaning merge for CEAS_08, the stage succeeds
whenever the row counts agree, the count of rows with null sender or
receiver is computed (for logging) as exactly the number of such rows, and
no row is dropped: the saved frame is the full positional merge and
retains one row per processed CEAS_08 row. -/
theorem header_cleaning_counts_nulls_but_drops_nothing
    (cleaned : List CleanedHeaderRow) (processed : List ProcessedCeasRow)
    (h : cleaned.length = processed.length) :
    headerCleaningStage cleaned processed =
      .ok (missingHeaderCount (cleanedHeadersMerge cleaned processed),
           cleanedHeadersMerge cleaned processed) ∧
    (cleanedHeadersMerge cleaned processed).length = processed.length := by
  have hlen : (cleanedHeadersMerge cleaned processed).length = processed.length := by
    simp [cleanedHeadersMerge, h]
  refine ⟨?_, hlen⟩
  simp [headerCleaningStage, h, hlen]

/-- Witness for C8: with one null-sender row, the stage returns the logged
count together with the full two-row frame. -/
theorem header_cleaning_counts_nulls_witness :
    exCleanedNull.length = exProcessed.length ∧
    headerCleaningStage exCleanedNull exProcessed =
      .ok (missingHeaderCount (cleanedHeadersMerge exCleanedNull exProcessed),
           cleanedHeadersMerge exCleanedNull exProcessed) :=
  ⟨by decide,
    (header_cleaning_counts_nulls_but_drops_nothing exCleanedNull exProcessed
      (by decide)).1⟩

/-- C3 counterexample: with training of fold 2 raising while folds 1 and 3
would succeed, the run is aborted by the top-level handler instead of
skipping fold 2 and continuing: no aggregate accuracy over the remaining
folds is computed. -/
theorem training_failure_aborts_run :
    mainRun foldResultsWithFailure = .abortedLogged "ValueError: single-class fold" ∧
    mainRun foldResultsWithFailure ≠
      .completed ((9 / 10 + 4 / 5) / 2) [9 / 10, 4 / 5] := by
  constructor
  · rfl
  · intro hcontra
    rw [show mainRun foldResultsWithFailure =
        .abortedLogged "ValueError: single-class fold" from rfl] at hcontra
    exact RunOutcome.noConfusion hcontra

/-- Helper for the fold loop: an error result after a prefix of successful
folds makes the loop stop there with that error, having emitted exactly the
events of the successful prefix plus the feature-extraction and training
attempt of the failing fold. -/
theorem runFolds_stops_at_first_error (post : List (Except String ℚ)) (m : String) :
    ∀ (pre : List (Except String ℚ)) (i : Nat), (∀ r ∈ pre, ∃ a, r = .ok a) →
    (runFolds i (pre ++ .error m :: post)).2 = .error m ∧
    (runFolds i (pre ++ .error m :: post)).1.length = 3 * pre.length + 2 := by
  intro pre
  induction pre with
  | nil =>
    intro i _
    simp [runFolds]
  | cons r pre ih =>
    intro i hok
    obtain ⟨a, rfl⟩ := hok r (List.mem_cons_self r pre)
    have tail := ih (i + 1) (fun q hq => hok q (List.mem_cons_of_mem _ hq))
    have happ : (Except.ok a :: pre) ++ Except.error m :: post
        = Except.ok a :: (pre ++ Except.error m :: post) := rfl
    rw [happ]
    simp only [runFolds]
    constructor
    · rw [tail.1]
      rfl
    · simp only [List.length_cons, tail.2]
      omega

/-- C3 (amended): if model training raises for some fold, the exception
propagates out of the fold loop to the top-level handler, which logs it
and returns: the failing fold and all subsequent folds are excluded, no
aggregate accuracy is computed, and the run does not continue with the
remaining folds (the event trace ends with the failing fold). -/
theorem training_failure_propagates_and_stops
    (pre post : List (Except String ℚ)) (m : String)
    (h : ∀ r ∈ pre, ∃ a, r = .ok a) :
    mainRun (pre ++ .error m :: post) = .abortedLogged m ∧
    (runFolds 1 (pre ++ .error m :: post)).1.length = 3 * pre.length + 2 := by
  have key := runFolds_stops_at_first_error post m pre 1 h
  refine ⟨?_, key.2⟩
  unfold mainRun
  rw [key.1]

/-- Witness for the amended C3: one successful fold, then a failure; the
run aborts with the failure logged. -/
theorem training_failure_propagates_witness :
    mainRun [Except.ok (1 : ℚ), Except.error "ValueError: fit failed",
             Except.ok 0] = .abortedLogged "ValueError: fit failed" :=
  (training_failure_propagates_and_stops [Except.ok 1] [Except.ok 0]
    "ValueError: fit failed"
    (fun r hr => by
      simp only [List.mem_singleton] at hr
      exact ⟨1, hr⟩)).1

end SpamPhishing

namespace SpamPhishing

/-- Unfolding of the fold loop on a successful fold: the emitted trace. -/
theorem runFolds_ok_fst (i : Nat) (a : ℚ) (rest : List (Except String ℚ)) :
    (runFolds i (.ok a :: rest)).1 =
      .featureExtraction i :: .training i :: .appendAccuracy i ::
        (runFolds (i + 1) rest).1 := rfl

/-- Unfolding of the fold loop on a failing fold: the emitted trace. -/
theorem runFolds_error_fst (i : Nat) (m : String) (rest : List (Except String ℚ)) :
    (runFolds i (.error m :: rest)).1 =
      [.featureExtraction i, .training i] := rfl

/-- Key of a feature-extraction event. -/
theorem eventKey_fe (i : Nat) : eventKey (.featureExtraction i) = 3 * i := rfl

/-- Key of a training event. -/
theorem eventKey_tr (i : Nat) : eventKey (.training i) = 3 * i + 1 := rfl

/-- Key of an accuracy-append event. -/
theorem eventKey_ap (i : Nat) : eventKey (.appendAccuracy i) = 3 * i + 2 := rfl

/-- Every event emitted by the loop starting at fold `i` has key at least
`3 * i`. -/
theorem runFolds_key_lower_bound :
    ∀ (rs : List (Except String ℚ)) (i : Nat),
      ∀ e ∈ (runFolds i rs).1, 3 * i ≤ eventKey e := by
  intro rs
  induction rs with
  | nil =>
    intro i e he
    simp [runFolds] at he
  | cons r rest ih =>
    intro i e he
    cases r with
    | ok a =>
      rw [runFolds_ok_fst] at he
      simp only [List.mem_cons] at he
      rcases he with rfl | rfl | rfl | he
      · simp only [eventKey_fe]
        omega
      · simp only [eventKey_tr]
        omega
      · simp only [eventKey_ap]
        omega
      · have := ih (i + 1) e he
        omega
    | error m =>
      rw [runFolds_error_fst] at he
      simp only [List.mem_cons, List.not_mem_nil, or_false] at he
      rcases he with rfl | rfl
      · simp only [eventKey_fe]
        omega
      · simp only [eventKey_tr]
        omega

/-- The event trace of the loop starting at fold `i` is strictly increasing
in the lexicographic (fold, stage) key. -/
theorem runFolds_trace_ordered :
    ∀ (rs : List (Except String ℚ)) (i : Nat),
      List.Pairwise (fun a b => eventKey a < eventKey b) (runFolds i rs).1 := by
  intro rs
  induction rs with
  | nil =>
    intro i
    simp [runFolds]
  | cons r rest ih =>
    intro i
    cases r with
    | ok a =>
      rw [runFolds_ok_fst]
      refine List.Pairwise.cons ?_
        (List.Pairwise.cons ?_ (List.Pairwise.cons ?_ (ih (i + 1))))
      · intro e he
        simp only [List.mem_cons] at he
        rcases he with rfl | rfl | he
        · simp only [eventKey_fe, eventKey_tr]
          omega
        · simp only [eventKey_fe, eventKey_ap]
          omega
        · have := runFolds_key_lower_bound rest (i + 1) e he
          simp only [eventKey_fe]
          omega
      · intro e he
        simp only [List.mem_cons] at he
        rcases he with rfl | he
        · simp only [eventKey_tr, eventKey_ap]
          omega
        · have := runFolds_key_lower_bound rest (i + 1) e he
          simp only [eventKey_tr]
          omega
      · intro e he
        have := runFolds_key_lower_bound rest (i + 1) e he
        simp only [eventKey_ap]
        omega
    | error m =>
      rw [runFolds_error_fst]
      refine List.Pairwise.cons ?_ (List.Pairwise.cons ?_ List.Pairwise.nil)
      · intro e he
        simp only [List.mem_cons, List.not_mem_nil, or_false] at he
        subst he
        simp only [eventKey_fe, eventKey_tr]
        omega
      · intro e he
        simp at he

/-- If a training event for fold `f` is in the trace, so is the feature
extraction event for fold `f`; likewise an accuracy append implies the
training event. -/
theorem runFolds_stage_occurrence :
    ∀ (rs : List (Except String ℚ)) (i : Nat) (f : Nat),
      (Event.training f ∈ (runFolds i rs).1 →
        Event.featureExtraction f ∈ (runFolds i rs).1) ∧
      (Event.appendAccuracy f ∈ (runFolds i rs).1 →
        Event.training f ∈ (runFolds i rs).1) := by
  intro rs
  induction rs with
  | nil =>
    intro i f
    constructor <;> intro hmem <;> simp [runFolds] at hmem
  | cons r rest ih =>
    intro i f
    cases r with
    | ok a =>
      constructor <;> intro hmem <;> rw [runFolds_ok_fst] at hmem ⊢ <;>
        simp only [List.mem_cons] at hmem ⊢
      · rcases hmem with h | h | h | h
        · exact absurd h (by simp)
        · have hf : f = i := by
            injection h
          exact Or.inl (by rw [hf])
        · exact absurd h (by simp)
        · exact Or.inr (Or.inr (Or.inr ((ih (i + 1) f).1 h)))
      · rcases hmem with h | h | h | h
        · exact absurd h (by simp)
        · exact absurd h (by simp)
        · have hf : f = i := by
            injection h
          exact Or.inr (Or.inl (by rw [hf]))
        · exact Or.inr (Or.inr (Or.inr ((ih (i + 1) f).2 h)))
    | error m =>
      constructor <;> intro hmem <;> rw [runFolds_error_fst] at hmem ⊢ <;>
        simp only [List.mem_cons, List.not_mem_nil, or_false] at hmem ⊢
      · rcases hmem with h | h
        · exact absurd h (by simp)
        · have hf : f = i := by
            injection h
          exact Or.inl (by rw [hf])
      · rcases hmem with h | h
        · exact absurd h (by simp)
        · exact absurd h (by simp)

/-- C9: the fold loop of `main` is strictly sequential — the emitted event
trace is strictly increasing in the lexicographic (fold index, stage) key,
so folds are processed in increasing fold-index order and, within every
fold, feature extraction precedes model training, which precedes the
append of the test accuracy of that fold; moreover training of a fold only
happens after its feature extraction occurred, and an accuracy append only
after its training occurred. -/
theorem fold_loop_sequential_ordering (rs : List (Except String ℚ)) :
    List.Pairwise (fun a b => eventKey a < eventKey b) (runFolds 1 rs).1 ∧
    (∀ f, Event.training f ∈ (runFolds 1 rs).1 →
      Event.featureExtraction f ∈ (runFolds 1 rs).1) ∧
    (∀ f, Event.appendAccuracy f ∈ (runFolds 1 rs).1 →
      Event.training f ∈ (runFolds 1 rs).1) :=
  ⟨runFolds_trace_ordered rs 1,
   fun f => (runFolds_stage_occurrence rs 1 f).1,
   fun f => (runFolds_stage_occurrence rs 1 f).2⟩

/-- Witness for C9 at a concrete one-fold run: training of fold 1 is in the
trace, hence so is its feature extraction. -/
theorem fold_loop_sequential_ordering_witness :
    Event.featureExtraction 1 ∈ (runFolds 1 [Except.ok (1 : ℚ)]).1 :=
  (fold_loop_sequential_ordering [Except.ok (1 : ℚ)]).2.1 1 (by decide)

end SpamPhishing

namespace SpamPhishing

/-- C2: every successful merge of a base table with a header-feature table
on the index column under a declared allow-list yields a merged table with
exactly as many rows as the base table whose column set equals the
allow-list together with the join key; and the subsequent verification
succeeds exactly when row counts (and the column set, where one is
declared) match, raising a fatal error on any mismatch. -/
theorem merge_and_verify_contract
    (base feature : SchemaDF) (onColumn : String) (sel : List String)
    (m : SchemaDF) (h : merge_dataframes base feature onColumn sel = .ok m) :
    m.nrows = base.nrows ∧
    (∀ c, c ∈ m.cols ↔ c ∈ sel ∨ c = onColumn) ∧
    (∀ reference expectedCols,
      verify_merged_dataframe m reference expectedCols = .ok () ↔
        (m.nrows = reference.nrows ∧
         ∀ cs ∈ expectedCols, (∀ c ∈ m.cols, c ∈ cs) ∧ (∀ c ∈ cs, c ∈ m.cols))) := by
  unfold merge_dataframes at h
  split at h
  case isFalse => exact absurd h (by simp)
  case isTrue hcond =>
    injection h with h
    subst h
    refine ⟨rfl, ?_, ?_⟩
    · intro c
      by_cases hon : onColumn ∈ sel
      · simp only [hon, if_true]
        constructor
        · exact Or.inl
        · rintro (hc | rfl)
          · exact hc
          · exact hon
      · simp only [hon, if_false, List.mem_append, List.mem_singleton]
    · intro reference expectedCols
      unfold verify_merged_dataframe
      by_cases hrow : SchemaDF.nrows
          { cols := if onColumn ∈ sel then sel else sel ++ [onColumn],
            indexVals := base.indexVals } = reference.nrows
      · simp only [hrow, ne_eq, not_true_eq_false, if_false, true_and]
        cases expectedCols with
        | none => simp
        | some cs =>
          by_cases hcols : (∀ c ∈ (SchemaDF.mk
              (if onColumn ∈ sel then sel else sel ++ [onColumn])
              base.indexVals).cols, c ∈ cs) ∧
              (∀ c ∈ cs, c ∈ (SchemaDF.mk
              (if onColumn ∈ sel then sel else sel ++ [onColumn])
              base.indexVals).cols)
          · simp [hcols]
          · simp only [hcols, if_false]
            simp only [Option.mem_def, Option.some.injEq]
            constructor
            · intro hcontra
              exact absurd hcontra (by simp)
            · intro hall
              exact absurd (hall cs rfl) hcols
      · simp only [hrow, ne_eq, not_false_eq_true, if_true]
        constructor
        · intro hcontra
          exact absurd hcontra (by simp)
        · intro hall
          exact hall.1.elim

/-- Witness for C2: the concrete three-row base and feature tables merge on
the index column under the allow-list of `main.py`, and the merged table
has the rows of the base table. -/
theorem merge_and_verify_contract_witness :
    merge_dataframes exBaseDF exFeatureDF "index" mainSelectColumns =
      .ok { cols := mainSelectColumns, indexVals := [0, 1, 2] } ∧
    SchemaDF.nrows { cols := mainSelectColumns, indexVals := [0, 1, 2] } =
      exBaseDF.nrows :=
  ⟨rfl,
    (merge_and_verify_contract exBaseDF exFeatureDF "index" mainSelectColumns
      { cols := mainSelectColumns, indexVals := [0, 1, 2] } rfl).1⟩

end SpamPhishing

namespace SpamPhishing

/-- Cache hit: when all four artifact files exist at the key, the
orchestrator loads and returns them and leaves the state untouched (in
particular no pipeline execution is counted). -/
theorem run_pipeline_or_load_hit (foldIdx dir : Nat)
    (p : Nat × Nat × Nat × Nat) (s : PipelineState) (a b c d : Nat)
    (h0 : s.files (dir, foldIdx, 0) = some a)
    (h1 : s.files (dir, foldIdx, 1) = some b)
    (h2 : s.files (dir, foldIdx, 2) = some c)
    (h3 : s.files (dir, foldIdx, 3) = some d) :
    run_pipeline_or_load foldIdx dir p s = ((a, b, c, d), s) := by
  unfold run_pipeline_or_load
  rw [h0, h1, h2, h3]

/-- Cache miss: when at least one artifact file is absent, the orchestrator
runs the pipeline, persists the four outputs, and returns the pipeline
result. -/
theorem run_pipeline_or_load_miss (foldIdx dir : Nat)
    (p : Nat × Nat × Nat × Nat) (s : PipelineState)
    (h : s.files (dir, foldIdx, 0) = none ∨ s.files (dir, foldIdx, 1) = none ∨
         s.files (dir, foldIdx, 2) = none ∨ s.files (dir, foldIdx, 3) = none) :
    run_pipeline_or_load foldIdx dir p s =
      (p, persistArtifacts foldIdx dir p s) := by
  unfold run_pipeline_or_load
  rcases e0 : s.files (dir, foldIdx, 0) with _ | a
  · rfl
  rcases e1 : s.files (dir, foldIdx, 1) with _ | b
  · rfl
  rcases e2 : s.files (dir, foldIdx, 2) with _ | c
  · rfl
  rcases e3 : s.files (dir, foldIdx, 3) with _ | d
  · rfl
  rw [e0, e1, e2, e3] at h
  rcases h with h | h | h | h <;> exact absurd h (by simp)

/-- After persisting, all four artifact files exist at the key and hold the
four pipeline outputs. -/
theorem persistArtifacts_files (foldIdx dir : Nat)
    (p : Nat × Nat × Nat × Nat) (s : PipelineState) :
    (persistArtifacts foldIdx dir p s).files (dir, foldIdx, 0) = some p.1 ∧
    (persistArtifacts foldIdx dir p s).files (dir, foldIdx, 1) = some p.2.1 ∧
    (persistArtifacts foldIdx dir p s).files (dir, foldIdx, 2) = some p.2.2.1 ∧
    (persistArtifacts foldIdx dir p s).files (dir, foldIdx, 3) = some p.2.2.2 := by
  refine ⟨?_, ?_, ?_, ?_⟩ <;> simp [persistArtifacts]

/-- C1: the load-or-compute contract of the orchestration layer.  (i) If
all four artifact files exist at the cache key, they are loaded and
returned and the pipeline is bypassed (state unchanged, no pipeline run
counted).  (ii) Otherwise the pipeline result is returned, one pipeline
execution is counted, and each of the four outputs is persisted at the
key.  (iii) Hence a second call with the same fold index and cache
directory returns exactly the outputs of the first call and performs no
further pipeline work (the state, including the run counter, is unchanged
by the second call). -/
theorem run_pipeline_or_load_contract (foldIdx dir : Nat)
    (p : Nat × Nat × Nat × Nat) (s : PipelineState) :
    (∀ a b c d,
      s.files (dir, foldIdx, 0) = some a → s.files (dir, foldIdx, 1) = some b →
      s.files (dir, foldIdx, 2) = some c → s.files (dir, foldIdx, 3) = some d →
      run_pipeline_or_load foldIdx dir p s = ((a, b, c, d), s)) ∧
    ((s.files (dir, foldIdx, 0) = none ∨ s.files (dir, foldIdx, 1) = none ∨
      s.files (dir, foldIdx, 2) = none ∨ s.files (dir, foldIdx, 3) = none) →
      (run_pipeline_or_load foldIdx dir p s).1 = p ∧
      (run_pipeline_or_load foldIdx dir p s).2.pipelineRuns = s.pipelineRuns + 1 ∧
      (run_pipeline_or_load foldIdx dir p s).2.files (dir, foldIdx, 0) = some p.1 ∧
      (run_pipeline_or_load foldIdx dir p s).2.files (dir, foldIdx, 1) = some p.2.1 ∧
      (run_pipeline_or_load foldIdx dir p s).2.files (dir, foldIdx, 2) = some p.2.2.1 ∧
      (run_pipeline_or_load foldIdx dir p s).2.files (dir, foldIdx, 3) = some p.2.2.2) ∧
    run_pipeline_or_load foldIdx dir p (run_pipeline_or_load foldIdx dir p s).2 =
      run_pipeline_or_load foldIdx dir p s := by
  refine ⟨?_, ?_, ?_⟩
  · intro a b c d h0 h1 h2 h3
    exact run_pipeline_or_load_hit foldIdx dir p s a b c d h0 h1 h2 h3
  · intro h
    rw [run_pipeline_or_load_miss foldIdx dir p s h]
    obtain ⟨w0, w1, w2, w3⟩ := persistArtifacts_files foldIdx dir p s
    exact ⟨rfl, rfl, w0, w1, w2, w3⟩
  · by_cases hall : ∃ a b c d,
        s.files (dir, foldIdx, 0) = some a ∧ s.files (dir, foldIdx, 1) = some b ∧
        s.files (dir, foldIdx, 2) = some c ∧ s.files (dir, foldIdx, 3) = some d
    · obtain ⟨a, b, c, d, h0, h1, h2, h3⟩ := hall
      have h := run_pipeline_or_load_hit foldIdx dir p s a b c d h0 h1 h2 h3
      rw [h]
      exact run_pipeline_or_load_hit foldIdx dir p s a b c d h0 h1 h2 h3
    · have hmiss : s.files (dir, foldIdx, 0) = none ∨
          s.files (dir, foldIdx, 1) = none ∨
          s.files (dir, foldIdx, 2) = none ∨
          s.files (dir, foldIdx, 3) = none := by
        rcases e0 : s.files (dir, foldIdx, 0) with _ | a
        · exact Or.inl rfl
        rcases e1 : s.files (dir, foldIdx, 1) with _ | b
        · exact Or.inr (Or.inl rfl)
        rcases e2 : s.files (dir, foldIdx, 2) with _ | c
        · exact Or.inr (Or.inr (Or.inl rfl))
        rcases e3 : s.files (dir, foldIdx, 3) with _ | d
        · exact Or.inr (Or.inr (Or.inr rfl))
        exact absurd ⟨a, b, c, d, e0, e1, e2, e3⟩ hall
      rw [run_pipeline_or_load_miss foldIdx dir p s hmiss]
      obtain ⟨w0, w1, w2, w3⟩ := persistArtifacts_files foldIdx dir p s
      have hsecond := run_pipeline_or_load_hit foldIdx dir p
        (persistArtifacts foldIdx dir p s) p.1 p.2.1 p.2.2.1 p.2.2.2 w0 w1 w2 w3
      rw [hsecond]

/-- Witness for C1: on the warm cache holding artifacts 10-13 for fold 1,
the orchestrator loads them and leaves the cache untouched. -/
theorem run_pipeline_or_load_contract_witness :
    warmCache.files (0, 1, 0) = some 10 ∧
    run_pipeline_or_load 1 0 (5, 6, 7, 8) warmCache = ((10, 11, 12, 13), warmCache) :=
  ⟨by decide,
    (run_pipeline_or_load_contract 1 0 (5, 6, 7, 8) warmCache).1 10 11 12 13
      (by decide) (by decide) (by decide) (by decide)⟩

end SpamPhishing

namespace SpamPhishing

/-- Label counts distribute over list append. -/
theorem countLabel_append {β : Type} (l : Int) (xs ys : List (β × Int)) :
    countLabel l (xs ++ ys) = countLabel l xs + countLabel l ys := by
  simp [countLabel, List.filter_append]

/-- A batch of synthetic rows, all carrying label `lab`, counts fully
towards `lab`. -/
theorem countLabel_synth_self {β : Type} (g : Nat → β) (L : List Nat) (lab : Int) :
    countLabel lab (L.map fun i => (g i, lab)) = L.length := by
  induction L with
  | nil => simp [countLabel]
  | cons x xs ih => simp [countLabel, List.filter] at ih ⊢; omega

/-- A batch of synthetic rows carrying label `lab` contributes nothing to
the count of a different label. -/
theorem countLabel_synth_other {β : Type} (g : Nat → β) (L : List Nat)
    (lab other : Int) (h : other ≠ lab) :
    countLabel other (L.map fun i => (g i, lab)) = 0 := by
  induction L with
  | nil => simp [countLabel]
  | cons x xs ih =>
    simp only [List.map_cons, countLabel, List.filter] at ih ⊢
    rw [decide_eq_false (by simpa using fun hc => h hc.symm)]
    exact ih

/-- The modelled SMOTE step equalises the two class counts of the training
split. -/
theorem smoteOversample_balances {β : Type} (train : List (β × Int))
    (synth : Nat → β) :
    countLabel 0 (smoteOversample train synth) =
      countLabel 1 (smoteOversample train synth) := by
  unfold smoteOversample
  by_cases h : countLabel 0 train ≤ countLabel 1 train
  · simp only [h, if_true, countLabel_append]
    rw [countLabel_synth_self, countLabel_synth_other _ _ _ _ (by decide),
      List.length_range]
    omega
  · simp only [h, if_false, countLabel_append]
    rw [countLabel_synth_self, countLabel_synth_other _ _ _ _ (by decide),
      List.length_range]
    omega

/-- C5: after the rebalancing step of the per-fold feature-extraction
pipeline, the training split has equal counts of label 0 and label 1,
while the test split is only transformed with the transformer fitted on
the training split — it is never oversampled, and its labels are returned
exactly as they entered the pipeline, so the test label distribution
equals that of the pre-oversampling split. -/
theorem pipeline_balances_train_never_test {α β : Type}
    (fit : List α → (α → β)) (synth : Nat → β)
    (Xtrain Xtest : List α) (ytrain ytest : List Int) :
    countLabel 0 (feature_extraction_pipeline fit synth Xtrain Xtest ytrain ytest).1 =
      countLabel 1 (feature_extraction_pipeline fit synth Xtrain Xtest ytrain ytest).1 ∧
    (feature_extraction_pipeline fit synth Xtrain Xtest ytrain ytest).2.2 = ytest ∧
    (feature_extraction_pipeline fit synth Xtrain Xtest ytrain ytest).2.1 =
      Xtest.map (fit Xtrain) := by
  refine ⟨?_, rfl, rfl⟩
  exact smoteOversample_balances ((Xtrain.map (fit Xtrain)).zip ytrain) synth

end SpamPhishing

namespace SpamPhishing

/-- Stripping the assigned groups recovers the record list. -/
theorem assignGroups_fst (k seed : Nat) :
    ∀ (rs : List (Nat × Int)) (seen : List Int),
      (assignGroups k seed seen rs).map Prod.fst = rs := by
  intro rs
  induction rs with
  | nil => intro seen; rfl
  | cons r rs ih =>
    intro seen
    simp only [assignGroups, List.map_cons, ih]

/-- Every assigned group is below `k`. -/
theorem assignGroups_lt (k seed : Nat) (hk : 0 < k) :
    ∀ (rs : List (Nat × Int)) (seen : List Int) (p : (Nat × Int) × Nat),
      p ∈ assignGroups k seed seen rs → p.2 < k := by
  intro rs
  induction rs with
  | nil =>
    intro seen p hp
    simp [assignGroups] at hp
  | cons r rs ih =>
    intro seen p hp
    simp only [assignGroups, List.mem_cons] at hp
    rcases hp with rfl | hp
    · exact Nat.mod_lt _ hk
    · exact ih _ p hp

/-- Membership in the test part of fold `g` means some record was assigned
group `g` with that index. -/
theorem mem_testFold_iff (records : List (Nat × Int)) (k seed g idx : Nat) :
    idx ∈ testFold records k seed g ↔
      ∃ p ∈ assignGroups k seed [] records, p.2 = g ∧ p.1.1 = idx := by
  simp only [testFold, List.mem_map, List.mem_filter, decide_eq_true_eq]
  constructor
  · rintro ⟨p, ⟨hp, hg⟩, hidx⟩
    exact ⟨p, hp, hg, hidx⟩
  · rintro ⟨p, hp, hg, hidx⟩
    exact ⟨p, ⟨hp, hg⟩, hidx⟩

/-- The record indices of the assignment list coincide with those of the
dataset. -/
theorem assignGroups_idx_map (k seed : Nat) (records : List (Nat × Int)) :
    (assignGroups k seed [] records).map (fun p => p.1.1) =
      records.map Prod.fst := by
  calc (assignGroups k seed [] records).map (fun p => p.1.1)
      = ((assignGroups k seed [] records).map Prod.fst).map Prod.fst := by
        rw [List.map_map]
        rfl
    _ = records.map Prod.fst := by rw [assignGroups_fst]

/-- C4: the modelled stratified split yields exactly `k` folds (fold `g`
being the train/test pair for group `g`), the test parts of distinct folds
are disjoint, their union is exactly the full index set, each test part is
duplicate-free, and the fold sequence is deterministic in the seed: the
same seed yields the same folds. -/
theorem stratified_split_partition
    (records : List (Nat × Int)) (k seed : Nat) (hk : 0 < k)
    (hnd : (records.map Prod.fst).Nodup) :
    (stratified_k_fold_split records k seed).length = k ∧
    (∀ g, g < k → (stratified_k_fold_split records k seed)[g]? =
      some (trainFold records k seed g, testFold records k seed g)) ∧
    (∀ g gp, g ≠ gp → ∀ idx, idx ∈ testFold records k seed g →
      idx ∉ testFold records k seed gp) ∧
    (∀ idx, idx ∈ records.map Prod.fst ↔
      ∃ g, g < k ∧ idx ∈ testFold records k seed g) ∧
    (∀ g, (testFold records k seed g).Nodup) ∧
    (∀ seed2, seed2 = seed →
      stratified_k_fold_split records k seed2 =
        stratified_k_fold_split records k seed) := by
  have hmap : ((assignGroups k seed [] records).map (fun p => p.1.1)).Nodup := by
    rw [assignGroups_idx_map]
    exact hnd
  have hinj := List.inj_on_of_nodup_map hmap
  refine ⟨?_, ?_, ?_, ?_, ?_, ?_⟩
  · simp [stratified_k_fold_split]
  · intro g hg
    simp [stratified_k_fold_split, List.getElem?_map, List.getElem?_range hg]
  · intro g gp hne idx hg hgp
    obtain ⟨p, hp, hpg, hpidx⟩ := (mem_testFold_iff records k seed g idx).mp hg
    obtain ⟨q, hq, hqg, hqidx⟩ := (mem_testFold_iff records k seed gp idx).mp hgp
    have : p = q := hinj hp hq (by rw [hpidx, hqidx])
    subst this
    exact hne (hpg ▸ hqg)
  · intro idx
    constructor
    · intro hidx
      rw [← assignGroups_idx_map k seed records] at hidx
      obtain ⟨p, hp, hpidx⟩ := List.mem_map.mp hidx
      refine ⟨p.2, assignGroups_lt k seed hk records [] p hp, ?_⟩
      exact (mem_testFold_iff records k seed p.2 idx).mpr ⟨p, hp, rfl, hpidx⟩
    · rintro ⟨g, _, hidx⟩
      obtain ⟨p, hp, _, hpidx⟩ := (mem_testFold_iff records k seed g idx).mp hidx
      rw [← assignGroups_idx_map k seed records]
      exact List.mem_map.mpr ⟨p, hp, hpidx⟩
  · intro g
    have hsub : List.Sublist
        (((assignGroups k seed [] records).filter
          (fun p => p.2 = g)).map (fun p => p.1.1))
        ((assignGroups k seed [] records).map (fun p => p.1.1)) :=
      (List.filter_sublist _).map _
    exact List.Nodup.sublist hsub hmap
  · intro seed2 hs
    rw [hs]

/-- Witness for C4 at a concrete four-record, two-class dataset with
`k = 2`: the split yields exactly two folds. -/
theorem stratified_split_partition_witness :
    (0 : Nat) < 2 ∧ (exRecords.map Prod.fst).Nodup ∧
    (stratified_k_fold_split exRecords 2 0).length = 2 :=
  ⟨by decide, by decide,
    (stratified_split_partition exRecords 2 0 (by decide) (by decide)).1⟩

end SpamPhishing
